import Mathlib

/-!
Verification of the dox2txt text-extraction pipeline (src/tools.rs, src/core.rs).

Modelling conventions:
* A Rust byte buffer `&[u8]` is a `List Nat` whose members are < 256.
* A Rust `String`/`&str` is a `List Char` (Lean `Char` = Unicode scalar value,
  exactly Rust's `char`).  Rust's byte-indexed `find`/slicing is modelled with
  character indices; every slice boundary used by the source lies on a char
  boundary, so the resulting strings coincide.
* The external crates `chardetng` (EncodingDetector) and `encoding_rs` are not
  part of this repository.  The detector is abstracted as a
  `guess : List Nat → Encoding` parameter; an `Encoding` carries the name
  reported in error messages and its BOM-free decoder
  (`decode_without_bom_handling`), returning decoded text together with the
  `had_errors` flag (true iff lossy replacement was required).  The
  `Encoding::decode` convenience method the source calls — WHATWG decode, which
  first BOM-sniffs and lets a UTF-8/UTF-16 byte-order mark override the
  encoding — is modelled once, as `encDecode`.  Concrete instances (strict
  UTF-8, windows-1252) are provided for witnesses and counterexamples.
-/

deriving instance DecidableEq for Except

namespace Dox

/-! ### UTF-8 (encoding_rs `UTF_8.decode` validity, `str` byte encoding) -/

def replacementChar : Char := Char.ofNat 0xFFFD

/-- UTF-8 continuation byte 0x80–0xBF. -/
def isCont (b : Nat) : Prop := 0x80 ≤ b ∧ b ≤ 0xBF

instance (b : Nat) : Decidable (isCont b) := by unfold isCont; infer_instance

def utf8Scalar2 (b1 b2 : Nat) : Nat := (b1 - 0xC0) * 0x40 + (b2 - 0x80)

def utf8Scalar3 (b1 b2 b3 : Nat) : Nat :=
  (b1 - 0xE0) * 0x1000 + (b2 - 0x80) * 0x40 + (b3 - 0x80)

def utf8Scalar4 (b1 b2 b3 b4 : Nat) : Nat :=
  (b1 - 0xF0) * 0x40000 + (b2 - 0x80) * 0x1000 + (b3 - 0x80) * 0x40 + (b4 - 0x80)

/-- Allowed range of the second byte of a 3-byte sequence (WHATWG UTF-8,
as implemented by encoding_rs): excludes overlongs (E0) and surrogates (ED). -/
def snd3Lo (b1 : Nat) : Nat := if b1 = 0xE0 then 0xA0 else 0x80
def snd3Hi (b1 : Nat) : Nat := if b1 = 0xED then 0x9F else 0xBF

/-- Allowed range of the second byte of a 4-byte sequence: excludes overlongs
(F0) and values above U+10FFFF (F4). -/
def snd4Lo (b1 : Nat) : Nat := if b1 = 0xF0 then 0x90 else 0x80
def snd4Hi (b1 : Nat) : Nat := if b1 = 0xF4 then 0x8F else 0xBF

/-- Worker for `utf8Decode`.  The fuel argument only bounds the recursion
depth; every step consumes at least one input byte, so `fuel = input length`
never runs out (the fuel-0 case is unreachable for the wrapper below). -/
def utf8DecodeGo : Nat → List Nat → List Char × Bool
  | 0, _ => ([], false)
  | _ + 1, [] => ([], false)
  | fuel + 1, b1 :: t1 =>
    if b1 ≤ 0x7F then
      let r := utf8DecodeGo fuel t1
      (Char.ofNat b1 :: r.1, r.2)
    else if 0xC2 ≤ b1 ∧ b1 ≤ 0xDF then
      match t1 with
      | [] => ([replacementChar], true)
      | b2 :: t2 =>
        if isCont b2 then
          let r := utf8DecodeGo fuel t2
          (Char.ofNat (utf8Scalar2 b1 b2) :: r.1, r.2)
        else
          let r := utf8DecodeGo fuel t1
          (replacementChar :: r.1, true)
    else if 0xE0 ≤ b1 ∧ b1 ≤ 0xEF then
      match t1 with
      | [] => ([replacementChar], true)
      | b2 :: t2 =>
        if snd3Lo b1 ≤ b2 ∧ b2 ≤ snd3Hi b1 then
          match t2 with
          | [] => ([replacementChar], true)
          | b3 :: t3 =>
            if isCont b3 then
              let r := utf8DecodeGo fuel t3
              (Char.ofNat (utf8Scalar3 b1 b2 b3) :: r.1, r.2)
            else
              let r := utf8DecodeGo fuel t2
              (replacementChar :: r.1, true)
        else
          let r := utf8DecodeGo fuel t1
          (replacementChar :: r.1, true)
    else if 0xF0 ≤ b1 ∧ b1 ≤ 0xF4 then
      match t1 with
      | [] => ([replacementChar], true)
      | b2 :: t2 =>
        if snd4Lo b1 ≤ b2 ∧ b2 ≤ snd4Hi b1 then
          match t2 with
          | [] => ([replacementChar], true)
          | b3 :: t3 =>
            if isCont b3 then
              match t3 with
              | [] => ([replacementChar], true)
              | b4 :: t4 =>
                if isCont b4 then
                  let r := utf8DecodeGo fuel t4
                  (Char.ofNat (utf8Scalar4 b1 b2 b3 b4) :: r.1, r.2)
                else
                  let r := utf8DecodeGo fuel t3
                  (replacementChar :: r.1, true)
            else
              let r := utf8DecodeGo fuel t2
              (replacementChar :: r.1, true)
        else
          let r := utf8DecodeGo fuel t1
          (replacementChar :: r.1, true)
    else
      let r := utf8DecodeGo fuel t1
      (replacementChar :: r.1, true)

/-- Strict UTF-8 decoding with replacement: the shared behavior of std's
`String::from_utf8_lossy` and encoding_rs' BOM-free UTF-8 decoder.  Returns the
decoded text and the `had_errors` flag (true iff the input is not valid strict
UTF-8).  Malformed input is replaced per maximal subpart: each error consumes
the longest prefix of a valid sequence (lead byte plus valid-in-position
continuations) and emits one U+FFFD, the offending byte being reprocessed. -/
def utf8Decode (data : List Nat) : List Char × Bool := utf8DecodeGo data.length data

/-- Rust `char::encode_utf8` / `str::as_bytes` for one scalar value. -/
def utf8EncodeChar (c : Char) : List Nat :=
  let n := c.toNat
  if n < 0x80 then [n]
  else if n < 0x800 then [0xC0 + n / 0x40, 0x80 + n % 0x40]
  else if n < 0x10000 then
    [0xE0 + n / 0x1000, 0x80 + n / 0x40 % 0x40, 0x80 + n % 0x40]
  else
    [0xF0 + n / 0x40000, 0x80 + n / 0x1000 % 0x40, 0x80 + n / 0x40 % 0x40, 0x80 + n % 0x40]

/-- `str::as_bytes` of a whole string. -/
def utf8EncodeList : List Char → List Nat
  | [] => []
  | c :: r => utf8EncodeChar c ++ utf8EncodeList r

/-! ### UTF-16 (BOM branches of safe_decode_bytes, BOM sniffing) -/

/-- `chunks_exact(2)`: consecutive byte pairs, a trailing odd byte dropped. -/
def bytePairs : List Nat → List (Nat × Nat)
  | a :: b :: rest => (a, b) :: bytePairs rest
  | _ => []

def u16FromLe (p : Nat × Nat) : Nat := p.1 + p.2 * 0x100
def u16FromBe (p : Nat × Nat) : Nat := p.1 * 0x100 + p.2

/-- Scan a list of 16-bit code units: pair surrogates, replace lone/invalid
surrogates with U+FFFD, and report whether any replacement occurred.  Fuel
bounds recursion depth only (each step consumes at least one unit, so
`fuel = input length` never runs out). -/
def utf16ScanGo : Nat → List Nat → List Char × Bool
  | 0, _ => ([], false)
  | _ + 1, [] => ([], false)
  | fuel + 1, u :: rest =>
    if 0xD800 ≤ u ∧ u ≤ 0xDBFF then
      match rest with
      | [] => ([replacementChar], true)
      | v :: rest2 =>
        if 0xDC00 ≤ v ∧ v ≤ 0xDFFF then
          let r := utf16ScanGo fuel rest2
          (Char.ofNat (0x10000 + (u - 0xD800) * 0x400 + (v - 0xDC00)) :: r.1, r.2)
        else
          let r := utf16ScanGo fuel rest
          (replacementChar :: r.1, true)
    else if 0xDC00 ≤ u ∧ u ≤ 0xDFFF then
      let r := utf16ScanGo fuel rest
      (replacementChar :: r.1, true)
    else
      let r := utf16ScanGo fuel rest
      (Char.ofNat u :: r.1, r.2)

def utf16Scan (units : List Nat) : List Char × Bool := utf16ScanGo units.length units

/-- Rust `String::from_utf16_lossy`: the text component of the unit scan. -/
def fromUtf16Lossy (units : List Nat) : List Char := (utf16Scan units).1

/-- encoding_rs UTF-16 decoding of raw bytes (as selected by BOM sniffing):
byte pairs form code units under the given order; a trailing odd byte is
malformed (one replacement, error), unpaired surrogates are replaced and
flagged. -/
def utf16DecodeRs (unit : Nat × Nat → Nat) (bytes : List Nat) : List Char × Bool :=
  let r := utf16Scan ((bytePairs bytes).map unit)
  if bytes.length % 2 = 1 then (r.1 ++ [replacementChar], true) else r

/-! ### The abstract encoding interface (chardetng + encoding_rs) -/

/-- An encoding as used by tools.rs: its name (for error messages) and its
BOM-free decoder (encoding_rs `decode_without_bom_handling`), returning text
plus the `had_errors` flag. -/
structure Encoding where
  name : String
  decodeNoBom : List Nat → List Char × Bool

/-- encoding_rs `UTF_8`: its BOM-free decoder is strict UTF-8 with
replacement. -/
def utf8Encoding : Encoding := ⟨"UTF-8", utf8Decode⟩

/-- encoding_rs `Encoding::decode`, the BOM-sniffing convenience method the
source calls (WHATWG decode): a UTF-8 or UTF-16 byte-order mark at the start
of the buffer overrides the encoding and is stripped; otherwise the encoding's
own BOM-free decoder runs on the whole buffer. -/
def encDecode (enc : Encoding) (data : List Nat) : List Char × Bool :=
  if data.take 2 = [0xFF, 0xFE] then utf16DecodeRs u16FromLe (data.drop 2)
  else if data.take 2 = [0xFE, 0xFF] then utf16DecodeRs u16FromBe (data.drop 2)
  else if data.take 3 = [0xEF, 0xBB, 0xBF] then utf8Decode (data.drop 3)
  else enc.decodeNoBom data

/-- The typed decode failure of the spec: `DecodeError{encoding}`. tools.rs
carries the same information in its `anyhow!("decode errors with {}", enc_name)`. -/
structure DecodeError where
  encoding : String
deriving DecidableEq

/-- tools.rs `decode_bytes`: run the (externally supplied) detector to guess an
encoding, decode the whole buffer with it (`enc.decode(data)`, BOM sniffing
included), fail with the guessed encoding's name if the decode required lossy
replacement. -/
def decode_bytes (guess : List Nat → Encoding) (data : List Nat) :
    Except DecodeError (List Char) :=
  let enc := guess data
  let r := encDecode enc data
  if r.2 then .error ⟨enc.name⟩ else .ok r.1

/-- tools.rs `is_utf8`: run the buffer through `UTF_8.decode` — BOM sniffing
included — and report the absence of errors.  Because of the sniffing, a
buffer opening with a UTF-16 BOM over a clean UTF-16 payload passes this
check even though it is not valid UTF-8. -/
def is_utf8 (data : List Nat) : Bool := !(encDecode utf8Encoding data).2

/-- tools.rs `safe_decode_bytes`: empty and one-byte buffers yield `""`;
a UTF-16 BOM selects lossy UTF-16 decoding of the remainder; otherwise valid
UTF-8 is passed through and anything else goes to heuristic detection. -/
def safe_decode_bytes (guess : List Nat → Encoding) (data : List Nat) :
    Except DecodeError (List Char) :=
  match data with
  | [] => .ok []
  | [_] => .ok []
  | b1 :: b2 :: rest =>
    if b1 = 0xFF ∧ b2 = 0xFE then
      .ok (fromUtf16Lossy ((bytePairs rest).map u16FromLe))
    else if b1 = 0xFE ∧ b2 = 0xFF then
      .ok (fromUtf16Lossy ((bytePairs rest).map u16FromBe))
    else if is_utf8 (b1 :: b2 :: rest) then .ok (utf8Decode (b1 :: b2 :: rest)).1
    else decode_bytes guess (b1 :: b2 :: rest)

/-! ### Rust `str::trim` -/

/-- Unicode White_Space code points, the set recognized by Rust's
`char::is_whitespace`. -/
def whitespaceCodes : List Nat :=
  [0x09, 0x0A, 0x0B, 0x0C, 0x0D, 0x20, 0x85, 0xA0, 0x1680,
   0x2000, 0x2001, 0x2002, 0x2003, 0x2004, 0x2005, 0x2006, 0x2007,
   0x2008, 0x2009, 0x200A, 0x2028, 0x2029, 0x202F, 0x205F, 0x3000]

def isRustWhitespace (c : Char) : Bool := whitespaceCodes.contains c.toNat

/-- Rust `str::trim`: strip leading and trailing whitespace. -/
def trimChars (s : List Char) : List Char :=
  ((s.dropWhile isRustWhitespace).reverse.dropWhile isRustWhitespace).reverse

/-! ### Substring search (Rust `str::contains` / `str::find`) -/

/-- Index of the first occurrence of `needle` in the list, Rust `str::find`
with a string pattern (positions here are character counts; every position the
source slices at is a char boundary, so slicing agrees with Rust's byte form). -/
def findSubstrPos (needle : List Char) : List Char → Option Nat
  | [] => if needle.isEmpty then some 0 else none
  | c :: rest =>
    if needle.isPrefixOf (c :: rest) then some 0
    else (findSubstrPos needle rest).map (· + 1)

def dtdMarker : List Char := ['<', '!', 'D', 'O', 'C', 'T', 'Y', 'P', 'E']

/-- tools.rs `is_dtd`: `xml.contains("<!DOCTYPE")`. -/
def is_dtd (xml : List Char) : Bool := (findSubstrPos dtdMarker xml).isSome

/-- tools.rs `remove_dtd`: cut from the `<!DOCTYPE` marker through the first
following `>` (inclusive); with no `>` after the marker, truncate at it. -/
def remove_dtd (xml : List Char) : List Char :=
  match findSubstrPos dtdMarker xml with
  | none => xml
  | some start =>
    match findSubstrPos ['>'] (xml.drop start) with
    | some e => xml.take start ++ xml.drop (start + e + 1)
    | none => xml.take start

/-! ### Entity fix-up (Rust `str::replace`) -/

/-- Worker for `replaceAll`; fuel bounds recursion depth only.  Each step
consumes at least one input character (the source's patterns are nonempty), so
`fuel = input length` never runs out. -/
def replaceAllGo (pat rep : List Char) : Nat → List Char → List Char
  | 0, s => s
  | _ + 1, [] => []
  | fuel + 1, c :: rest =>
    if ¬pat.isEmpty ∧ pat.isPrefixOf (c :: rest) then
      rep ++ replaceAllGo pat rep fuel ((c :: rest).drop pat.length)
    else c :: replaceAllGo pat rep fuel rest

/-- Rust `str::replace` with a nonempty string pattern: replace every
non-overlapping occurrence, scanning left to right. -/
def replaceAll (pat rep s : List Char) : List Char := replaceAllGo pat rep s.length s

/-- tools.rs `fix_html_entities`: six chained `replace` passes, in source
order (`&nbsp;`, `&lt;`, `&gt;`, `&amp;`, `&quot;`, `&apos;`). -/
def fix_html_entities (s : List Char) : List Char :=
  replaceAll "&apos;".data "'".data
    (replaceAll "&quot;".data "\"".data
      (replaceAll "&amp;".data "&".data
        (replaceAll "&gt;".data ">".data
          (replaceAll "&lt;".data "<".data
            (replaceAll "&nbsp;".data "\u00A0".data s)))))

/-! ### Invalid-character filter -/

/-- The allowed-character predicate of tools.rs `clean_invalid_xml_chars`. -/
def allowedXmlChar (c : Char) : Bool :=
  decide (c.toNat = 0x9 ∨ c.toNat = 0xA ∨ c.toNat = 0xD ∨
    (0x20 ≤ c.toNat ∧ c.toNat ≤ 0xD7FF) ∨
    (0xE000 ≤ c.toNat ∧ c.toNat ≤ 0xFFFD) ∨
    (0x10000 ≤ c.toNat ∧ c.toNat ≤ 0x10FFFF))

/-- tools.rs `clean_invalid_xml_chars`: keep exactly the allowed characters. -/
def clean_invalid_xml_chars (s : List Char) : List Char := s.filter allowedXmlChar

/-! ### The sanitizer (tools.rs `sanitize_xml`) -/

/-- The text-level portion of tools.rs `sanitize_xml` (everything after
`safe_decode_bytes`): trim, then — only when a `<!DOCTYPE` marker is present —
DTD removal and entity fix-up, and finally the character filter. -/
def sanitize_text (s : List Char) : List Char :=
  let t := trimChars s
  if is_dtd t then clean_invalid_xml_chars (fix_html_entities (remove_dtd t))
  else clean_invalid_xml_chars t

/-- tools.rs `sanitize_xml`: decode the bytes, then sanitize the text. -/
def sanitize_xml (guess : List Nat → Encoding) (data : List Nat) :
    Except DecodeError (List Char) :=
  match safe_decode_bytes guess data with
  | .error e => .error e
  | .ok raw => .ok (sanitize_text raw)

/-! ### RTF escape decoding (tools.rs `decode_rtf_escapes`) -/

/-- Value of one hex digit, Rust `char::to_digit(16)`. -/
def hexDigitVal (c : Char) : Option Nat :=
  let n := c.toNat
  if 0x30 ≤ n ∧ n ≤ 0x39 then some (n - 0x30)
  else if 0x61 ≤ n ∧ n ≤ 0x66 then some (n - 0x61 + 10)
  else if 0x41 ≤ n ∧ n ≤ 0x46 then some (n - 0x41 + 10)
  else none

/-- Rust `u8::from_str_radix(&format!("{}{}", h1, h2), 16)`: two hex digits,
or a leading `+` sign followed by one hex digit (`from_str_radix` accepts an
optional leading plus); anything else is an error.  Two hex digits never
overflow a u8. -/
def fromStrRadix16Pair (h1 h2 : Char) : Option Nat :=
  match hexDigitVal h1, hexDigitVal h2 with
  | some d1, some d2 => some (d1 * 0x10 + d2)
  | _, _ => if h1 = '+' then hexDigitVal h2 else none

/-- The scanning loop of tools.rs `decode_rtf_escapes`: build the byte
accumulation buffer.  `\'hh` with a parsable hex pair pushes the raw byte;
a malformed escape pushes `\`, `'` and each consumed character cast
`as u8` (code point truncated to the low 8 bits); everything else is pushed
as its UTF-8 bytes. -/
def rtfScanBytes : List Char → List Nat
  | [] => []
  | '\\' :: '\'' :: h1 :: h2 :: rest =>
    (match fromStrRadix16Pair h1 h2 with
     | some b => b :: rtfScanBytes rest
     | none => 0x5C :: 0x27 :: (h1.toNat % 0x100) :: (h2.toNat % 0x100) :: rtfScanBytes rest)
  | ['\\', '\'', h1] => [0x5C, 0x27, h1.toNat % 0x100]
  | ['\\', '\''] => [0x5C, 0x27]
  | c :: rest => utf8EncodeChar c ++ rtfScanBytes rest

/-- tools.rs `decode_rtf_escapes`: scan, then hand the re-synthesized byte
buffer back through heuristic decoding (`decode_bytes`). -/
def decode_rtf_escapes (guess : List Nat → Encoding) (rtf : List Char) :
    Except DecodeError (List Char) :=
  decode_bytes guess (rtfScanBytes rtf)

/-! ### Concrete encodings for witnesses and counterexamples -/

/-- windows-1252 code points for bytes 0x80–0x9F (encoding_rs maps the five
undefined bytes to the corresponding C1 controls; the decode never errors). -/
def w1252Table : List Nat :=
  [0x20AC, 0x81, 0x201A, 0x192, 0x201E, 0x2026, 0x2020, 0x2021,
   0x2C6, 0x2030, 0x160, 0x2039, 0x152, 0x8D, 0x17D, 0x8F,
   0x90, 0x2018, 0x2019, 0x201C, 0x201D, 0x2022, 0x2013, 0x2014,
   0x2DC, 0x2122, 0x161, 0x203A, 0x153, 0x9D, 0x17E, 0x178]

def w1252DecodeByte (b : Nat) : Char :=
  if b < 0x80 then Char.ofNat b
  else if b < 0xA0 then Char.ofNat (w1252Table.getD (b - 0x80) 0)
  else Char.ofNat b

/-- The single-byte windows-1252 encoding: its BOM-free decoder is a total
byte map that never errors (BOM sniffing is supplied by `encDecode`). -/
def windows1252 : Encoding := ⟨"windows-1252", fun data => (data.map w1252DecodeByte, false)⟩

/-- A concrete detector outcome: chardetng's usual guess (windows-1252) for
Latin/ASCII-looking non-UTF-8 data, used to instantiate the abstract detector
in closed statements. -/
def guessW1252 : List Nat → Encoding := fun _ => windows1252

/-- A concrete detector outcome that guesses strict UTF-8. -/
def guessUtf8 : List Nat → Encoding := fun _ => utf8Encoding

/-! ### core.rs models (the per-format stages up to the external parsers) -/

/-- Failures of the zipped-entry pipeline stage: `read_to_string` rejecting
non-UTF-8 entry bytes (an io::Error in the source), or a decode failure. -/
inductive ZipEntryError where
  | ioInvalidUtf8 : ZipEntryError
  | decodeFail : DecodeError → ZipEntryError
deriving DecidableEq

/-- `std::io::Read::read_to_string` on an archive entry: std's strict UTF-8
validation, with no BOM sniffing — it fails unless the bytes are valid
UTF-8. -/
def read_to_string (data : List Nat) : Except ZipEntryError (List Char) :=
  if (utf8Decode data).2 then .error .ioInvalidUtf8 else .ok (utf8Decode data).1

/-- core.rs `extract_zipped`, per matching entry, up to the external XML parse:
`read_to_string` into a `String`, then `sanitize_xml(data.as_bytes())`. -/
def extract_zipped_entry (guess : List Nat → Encoding) (data : List Nat) :
    Except ZipEntryError (List Char) :=
  match read_to_string data with
  | .error e => .error e
  | .ok s =>
    match sanitize_xml guess (utf8EncodeList s) with
    | .error e => .error (.decodeFail e)
    | .ok t => .ok t

/-- core.rs `extract_html`, up to the external HTML parse: the file bytes are
passed to `sanitize_xml` — the full sanitizer, not a reduced one. -/
def extract_html_sanitized (guess : List Nat → Encoding) (data : List Nat) :
    Except DecodeError (List Char) :=
  sanitize_xml guess data

/-- Modelled from the spec: the sanitization the spec prescribes for the Html
format — "apply step 4 of XmlSanitizer alone, skipping steps 2–3", i.e. decode
and filter invalid characters, with no trim, DTD removal or entity fix-up. -/
def html_sanitize_spec (guess : List Nat → Encoding) (data : List Nat) :
    Except DecodeError (List Char) :=
  match safe_decode_bytes guess data with
  | .error e => .error e
  | .ok raw => .ok (clean_invalid_xml_chars raw)

/-- core.rs `convert_to_utf8` (the `.txt` pipeline), minus the file read:
buffers passing the (BOM-sniffing) `is_utf8` check are read raw with
`String::from_utf8_lossy`, anything else goes to heuristic detection; the
result is trimmed.  Note: `safe_decode_bytes` is not called here. -/
def convert_to_utf8 (guess : List Nat → Encoding) (data : List Nat) :
    Except DecodeError (List Char) :=
  match (if is_utf8 data then Except.ok (utf8Decode data).1 else decode_bytes guess data) with
  | .error e => .error e
  | .ok txt => .ok (trimChars txt)

/-! ### Helper lemmas -/

theorem clean_invalid_idem (s : List Char) :
    clean_invalid_xml_chars (clean_invalid_xml_chars s) = clean_invalid_xml_chars s := by
  simp [clean_invalid_xml_chars, List.filter_filter]

theorem sanitize_text_eq (s : List Char) :
    sanitize_text s =
      if is_dtd (trimChars s) then
        clean_invalid_xml_chars (fix_html_entities (remove_dtd (trimChars s)))
      else clean_invalid_xml_chars (trimChars s) := rfl

/-- The sanitizer's output always ends in the character filter, so filtering it
again changes nothing. -/
theorem clean_sanitize_text (s : List Char) :
    clean_invalid_xml_chars (sanitize_text s) = sanitize_text s := by
  rw [sanitize_text_eq]
  by_cases h : is_dtd (trimChars s)
  · rw [if_pos h]; exact clean_invalid_idem _
  · rw [if_neg h]; exact clean_invalid_idem _

/-- `Char.ofNat` followed by `Char.toNat` is the identity on valid scalar
values. -/
theorem char_toNat_ofNat {n : Nat} (h : n.isValidChar) : (Char.ofNat n).toNat = n := by
  simp [Char.ofNat, h, Char.ofNatAux, Char.toNat, UInt32.toNat, BitVec.toNat_ofNatLt]

theorem utf8EncodeChar_ascii {b : Nat} (h : b ≤ 0x7F) :
    utf8EncodeChar (Char.ofNat b) = [b] := by
  have hv : b.isValidChar := Or.inl (by omega)
  simp only [utf8EncodeChar, char_toNat_ofNat hv]
  rw [if_pos (by omega)]

theorem utf8EncodeChar_two {b1 b2 : Nat} (h1 : 0xC2 ≤ b1) (h2 : b1 ≤ 0xDF)
    (h3 : isCont b2) :
    utf8EncodeChar (Char.ofNat (utf8Scalar2 b1 b2)) = [b1, b2] := by
  obtain ⟨h3a, h3b⟩ := h3
  simp only [utf8Scalar2]
  have hv : ((b1 - 0xC0) * 0x40 + (b2 - 0x80)).isValidChar := Or.inl (by omega)
  simp only [utf8EncodeChar, char_toNat_ofNat hv]
  rw [if_neg (by omega), if_pos (by omega)]
  simp only [List.cons.injEq, and_true]
  exact ⟨by omega, by omega⟩

theorem utf8EncodeChar_three {b1 b2 b3 : Nat} (h1 : 0xE0 ≤ b1) (h2 : b1 ≤ 0xEF)
    (h3 : snd3Lo b1 ≤ b2) (h4 : b2 ≤ snd3Hi b1) (h5 : isCont b3) :
    utf8EncodeChar (Char.ofNat (utf8Scalar3 b1 b2 b3)) = [b1, b2, b3] := by
  obtain ⟨h5a, h5b⟩ := h5
  have h3a : 0x80 ≤ b2 := le_trans (by unfold snd3Lo; split_ifs <;> omega) h3
  have h4a : b2 ≤ 0xBF := le_trans h4 (by unfold snd3Hi; split_ifs <;> omega)
  have hED : b1 ≠ 0xED ∨ b2 ≤ 0x9F := by
    by_cases he : b1 = 0xED
    · exact Or.inr (le_trans h4 (by rw [he]; simp [snd3Hi]))
    · exact Or.inl he
  have hE0 : b1 ≠ 0xE0 ∨ 0xA0 ≤ b2 := by
    by_cases he : b1 = 0xE0
    · exact Or.inr (le_trans (by rw [he]; simp [snd3Lo]) h3)
    · exact Or.inl he
  simp only [utf8Scalar3]
  have hv : ((b1 - 0xE0) * 0x1000 + (b2 - 0x80) * 0x40 + (b3 - 0x80)).isValidChar := by
    unfold Nat.isValidChar; omega
  simp only [utf8EncodeChar, char_toNat_ofNat hv]
  rw [if_neg (by omega), if_neg (by omega), if_pos (by omega)]
  simp only [List.cons.injEq, and_true]
  exact ⟨by omega, by omega, by omega⟩

theorem utf8EncodeChar_four {b1 b2 b3 b4 : Nat} (h1 : 0xF0 ≤ b1) (h2 : b1 ≤ 0xF4)
    (h3 : snd4Lo b1 ≤ b2) (h4 : b2 ≤ snd4Hi b1) (h5 : isCont b3) (h6 : isCont b4) :
    utf8EncodeChar (Char.ofNat (utf8Scalar4 b1 b2 b3 b4)) = [b1, b2, b3, b4] := by
  obtain ⟨h5a, h5b⟩ := h5
  obtain ⟨h6a, h6b⟩ := h6
  have h3a : 0x80 ≤ b2 := le_trans (by unfold snd4Lo; split_ifs <;> omega) h3
  have h4a : b2 ≤ 0xBF := le_trans h4 (by unfold snd4Hi; split_ifs <;> omega)
  have hF4 : b1 ≠ 0xF4 ∨ b2 ≤ 0x8F := by
    by_cases he : b1 = 0xF4
    · exact Or.inr (le_trans h4 (by rw [he]; simp [snd4Hi]))
    · exact Or.inl he
  have hF0 : b1 ≠ 0xF0 ∨ 0x90 ≤ b2 := by
    by_cases he : b1 = 0xF0
    · exact Or.inr (le_trans (by rw [he]; simp [snd4Lo]) h3)
    · exact Or.inl he
  simp only [utf8Scalar4]
  have hv : ((b1 - 0xF0) * 0x40000 + (b2 - 0x80) * 0x1000 + (b3 - 0x80) * 0x40
      + (b4 - 0x80)).isValidChar := by
    unfold Nat.isValidChar; omega
  simp only [utf8EncodeChar, char_toNat_ofNat hv]
  rw [if_neg (by omega), if_neg (by omega), if_neg (by omega)]
  simp only [List.cons.injEq, and_true]
  exact ⟨by omega, by omega, by omega, by omega⟩

set_option maxRecDepth 4000 in
/-- Round trip: a no-error strict UTF-8 decode re-encodes to exactly the input
bytes — nothing is substituted, dropped or altered. -/
theorem utf8DecodeGo_encode : ∀ (fuel : Nat) (l : List Nat), l.length ≤ fuel →
    (utf8DecodeGo fuel l).2 = false → utf8EncodeList (utf8DecodeGo fuel l).1 = l := by
  intro fuel
  induction fuel with
  | zero =>
    intro l hl _
    cases l with
    | nil => rfl
    | cons a t => simp at hl
  | succ fuel ih =>
    intro l hl hf
    cases l with
    | nil => rfl
    | cons b1 t1 =>
      have hlen1 : t1.length ≤ fuel := by simp [List.length_cons] at hl; omega
      cases t1 with
      | nil =>
        simp only [utf8DecodeGo] at hf ⊢
        split_ifs at hf ⊢
        simp only [utf8EncodeList] at hf ⊢
        rw [ih _ (by simp only [List.length_cons, List.length_nil] at hlen1 ⊢; omega) hf]
        rw [utf8EncodeChar_ascii (by assumption)]
        rfl
      | cons b2 t2 =>
        cases t2 with
        | nil =>
          simp only [utf8DecodeGo] at hf ⊢
          split_ifs at hf ⊢ <;>
            (simp only [utf8EncodeList] at hf ⊢
             rw [ih _ (by simp only [List.length_cons, List.length_nil] at hlen1 ⊢; omega) hf]
             first
               | rw [utf8EncodeChar_ascii (by assumption)]
               | rw [utf8EncodeChar_two ‹0xC2 ≤ b1 ∧ b1 ≤ 0xDF›.1 ‹0xC2 ≤ b1 ∧ b1 ≤ 0xDF›.2
                   ‹isCont b2›]
             rfl)
        | cons b3 t3 =>
          cases t3 with
          | nil =>
            simp only [utf8DecodeGo] at hf ⊢
            split_ifs at hf ⊢ <;>
              (simp only [utf8EncodeList] at hf ⊢
               rw [ih _ (by simp only [List.length_cons, List.length_nil] at hlen1 ⊢; omega) hf]
               first
                 | rw [utf8EncodeChar_ascii (by assumption)]
                 | rw [utf8EncodeChar_two ‹0xC2 ≤ b1 ∧ b1 ≤ 0xDF›.1 ‹0xC2 ≤ b1 ∧ b1 ≤ 0xDF›.2
                     ‹isCont b2›]
                 | rw [utf8EncodeChar_three ‹0xE0 ≤ b1 ∧ b1 ≤ 0xEF›.1 ‹0xE0 ≤ b1 ∧ b1 ≤ 0xEF›.2
                     ‹snd3Lo b1 ≤ b2 ∧ b2 ≤ snd3Hi b1›.1
                     ‹snd3Lo b1 ≤ b2 ∧ b2 ≤ snd3Hi b1›.2
                     ‹isCont b3›]
               rfl)
          | cons b4 t4 =>
            simp only [utf8DecodeGo] at hf ⊢
            split_ifs at hf ⊢ <;>
              (simp only [utf8EncodeList] at hf ⊢
               rw [ih _ (by simp only [List.length_cons, List.length_nil] at hlen1 ⊢; omega) hf]
               first
                 | rw [utf8EncodeChar_ascii (by assumption)]
                 | rw [utf8EncodeChar_two ‹0xC2 ≤ b1 ∧ b1 ≤ 0xDF›.1 ‹0xC2 ≤ b1 ∧ b1 ≤ 0xDF›.2
                     ‹isCont b2›]
                 | rw [utf8EncodeChar_three ‹0xE0 ≤ b1 ∧ b1 ≤ 0xEF›.1 ‹0xE0 ≤ b1 ∧ b1 ≤ 0xEF›.2
                     ‹snd3Lo b1 ≤ b2 ∧ b2 ≤ snd3Hi b1›.1
                     ‹snd3Lo b1 ≤ b2 ∧ b2 ≤ snd3Hi b1›.2
                     ‹isCont b3›]
                 | rw [utf8EncodeChar_four ‹0xF0 ≤ b1 ∧ b1 ≤ 0xF4›.1 ‹0xF0 ≤ b1 ∧ b1 ≤ 0xF4›.2
                     ‹snd4Lo b1 ≤ b2 ∧ b2 ≤ snd4Hi b1›.1
                     ‹snd4Lo b1 ≤ b2 ∧ b2 ≤ snd4Hi b1›.2
                     ‹isCont b3› ‹isCont b4›]
               rfl)

/-- Restatement of the round trip through `utf8Decode`. -/
theorem utf8Decode_encode (data : List Nat) (h : (utf8Decode data).2 = false) :
    utf8EncodeList (utf8Decode data).1 = data :=
  utf8DecodeGo_encode data.length data le_rfl h

set_option maxRecDepth 4000 in
/-- The decode worker is fuel-invariant once the fuel covers the input length,
so any surplus-fuel call computes `utf8Decode`. -/
theorem utf8DecodeGo_fuel : ∀ (f1 f2 : Nat) (l : List Nat), l.length ≤ f1 →
    l.length ≤ f2 → utf8DecodeGo f1 l = utf8DecodeGo f2 l := by
  intro f1
  induction f1 with
  | zero =>
    intro f2 l h1 _
    cases l with
    | nil => cases f2 <;> rfl
    | cons a t => simp at h1
  | succ f1 ih =>
    intro f2 l h1 h2
    cases l with
    | nil => cases f2 <;> rfl
    | cons b1 t1 =>
      cases f2 with
      | zero => simp at h2
      | succ f2 =>
        cases t1 with
        | nil =>
          simp only [utf8DecodeGo]
          split_ifs <;>
            first
              | rfl
              | rw [ih f2 _ (by simp only [List.length_cons, List.length_nil] at h1 ⊢; omega)
                  (by simp only [List.length_cons, List.length_nil] at h2 ⊢; omega)]
        | cons b2 t2 =>
          cases t2 with
          | nil =>
            simp only [utf8DecodeGo]
            split_ifs <;>
              first
                | rfl
                | rw [ih f2 _ (by simp only [List.length_cons, List.length_nil] at h1 ⊢; omega)
                    (by simp only [List.length_cons, List.length_nil] at h2 ⊢; omega)]
          | cons b3 t3 =>
            cases t3 with
            | nil =>
              simp only [utf8DecodeGo]
              split_ifs <;>
                first
                  | rfl
                  | rw [ih f2 _
                      (by simp only [List.length_cons, List.length_nil] at h1 ⊢; omega)
                      (by simp only [List.length_cons, List.length_nil] at h2 ⊢; omega)]
            | cons b4 t4 =>
              simp only [utf8DecodeGo]
              split_ifs <;>
                first
                  | rfl
                  | rw [ih f2 _
                      (by simp only [List.length_cons, List.length_nil] at h1 ⊢; omega)
                      (by simp only [List.length_cons, List.length_nil] at h2 ⊢; omega)]

/-- Stripping a UTF-8 byte-order mark does not change whether strict decoding
errors: the mark itself is one complete valid sequence. -/
theorem utf8Decode_utf8bom_flag (rest : List Nat) :
    (utf8Decode (0xEF :: 0xBB :: 0xBF :: rest)).2 = (utf8Decode rest).2 := by
  show (utf8DecodeGo (0xEF :: 0xBB :: 0xBF :: rest).length (0xEF :: 0xBB :: 0xBF :: rest)).2 = _
  simp only [List.length_cons, utf8DecodeGo]
  rw [if_neg (by decide), if_neg (by decide), if_pos (by decide), if_pos (by decide),
    if_pos (by decide)]
  rw [utf8DecodeGo_fuel (rest.length + 1 + 1) rest.length rest (by omega) le_rfl]
  rfl

/-- On buffers with no UTF-16 byte-order mark, the BOM-sniffing `is_utf8`
coincides with strict UTF-8 validity. -/
theorem is_utf8_strict {data : List Nat}
    (h1 : data.take 2 ≠ [0xFF, 0xFE]) (h2 : data.take 2 ≠ [0xFE, 0xFF])
    (h : is_utf8 data = true) : (utf8Decode data).2 = false := by
  unfold is_utf8 encDecode at h
  rw [if_neg h1, if_neg h2] at h
  by_cases h3 : data.take 3 = [0xEF, 0xBB, 0xBF]
  · rw [if_pos h3] at h
    have hd : data = 0xEF :: 0xBB :: 0xBF :: data.drop 3 := by
      conv_lhs => rw [← List.take_append_drop 3 data]
      rw [h3]
      rfl
    rw [hd, utf8Decode_utf8bom_flag]
    simpa using h
  · rw [if_neg h3] at h
    simpa [utf8Encoding] using h

/-! ### Claim theorems -/

/-- C1, counterexample: on the spec's own example input, the sanitizer does
not return `"<root>hi</root>"` — the first `>` ends the inner `<!ENTITY`
declaration, so removal stops inside the internal subset. -/
theorem c1_counterexample :
    sanitize_text "<!DOCTYPE foo [ <!ENTITY x \"y\"> ]><root>hi</root>".data ≠
      "<root>hi</root>".data := by decide

/-- C1 (amended): DTD removal excises from the `<!DOCTYPE` marker only through
the first following `>`; on the example input that `>` closes the inner
`<!ENTITY x "y">` declaration, so the result is `" ]><root>hi</root>"`, and
the entity declaration is deleted, never expanded (no `<!ENTITY` and no
occurrence of its replacement text survives). -/
theorem c1_dtd_removal_stops_at_first_gt :
    sanitize_text "<!DOCTYPE foo [ <!ENTITY x \"y\"> ]><root>hi</root>".data =
        " ]><root>hi</root>".data ∧
      findSubstrPos "<!ENTITY".data
        (sanitize_text "<!DOCTYPE foo [ <!ENTITY x \"y\"> ]><root>hi</root>".data) = none ∧
      findSubstrPos "y".data
        (sanitize_text "<!DOCTYPE foo [ <!ENTITY x \"y\"> ]><root>hi</root>".data) = none := by
  refine ⟨by decide, by decide, by decide⟩

/-- C2, counterexample: for the Html format the DTD-removal and entity fix-up
steps are not skipped: a `<!DOCTYPE` declaration is excised and `&amp;` is
textually replaced before parsing. -/
theorem c2_counterexample :
    extract_html_sanitized guessW1252 (utf8EncodeList "<!DOCTYPE html><p>&amp;</p>".data) =
        .ok "<p>&</p>".data ∧
      findSubstrPos dtdMarker "<p>&</p>".data = none ∧
      findSubstrPos "&amp;".data "<p>&</p>".data = none := by
  refine ⟨by decide, by decide, by decide⟩

/-- C2 (amended): Html extraction runs the decoded text through the full
sanitizer `sanitize_xml` — trim, DTD removal, conditional entity fix-up and
the character filter — identically to the XML formats; it does not implement
the spec's reduced filter-only sanitization, from which it observably
differs. -/
theorem c2_html_uses_full_sanitizer :
    (∀ (guess : List Nat → Encoding) (data : List Nat),
        extract_html_sanitized guess data = sanitize_xml guess data) ∧
      extract_html_sanitized guessW1252 (utf8EncodeList "<!DOCTYPE html><p>&amp;</p>".data) ≠
        html_sanitize_spec guessW1252 (utf8EncodeList "<!DOCTYPE html><p>&amp;</p>".data) := by
  refine ⟨fun _ _ => rfl, by decide⟩

/-- C3, counterexample: sanitization is not idempotent.  For `"x \u0000"` the
character filter drops the NUL after trimming, exposing a trailing space that
only the second application trims away. -/
theorem c3_counterexample :
    sanitize_text (sanitize_text "x \u0000".data) ≠ sanitize_text "x \u0000".data := by
  decide

/-- C3 (amended): sanitization is idempotent on every text whose sanitized
form is trim-stable and contains no `<!DOCTYPE` marker; in general a second
application can trim whitespace exposed by the character filter or DTD
removal, or excise a further DOCTYPE, so idempotence fails. -/
theorem c3_sanitize_idempotent_conditional (s : List Char)
    (h1 : is_dtd (sanitize_text s) = false)
    (h2 : trimChars (sanitize_text s) = sanitize_text s) :
    sanitize_text (sanitize_text s) = sanitize_text s := by
  rw [sanitize_text_eq (sanitize_text s), h2, h1]
  simpa using clean_sanitize_text s

/-- Witness for the amended C3 theorem at the concrete text `"ab"`. -/
theorem c3_witness :
    is_dtd (sanitize_text "ab".data) = false ∧
      trimChars (sanitize_text "ab".data) = sanitize_text "ab".data ∧
      sanitize_text (sanitize_text "ab".data) = sanitize_text "ab".data :=
  ⟨by decide, by decide, c3_sanitize_idempotent_conditional "ab".data (by decide) (by decide)⟩

/-- C4: when `enc.decode(data)` under the guessed encoding reports lossy
substitution (`had_errors`), `decode_bytes` fails with an error carrying that
encoding's name — it never returns the substituted text. -/
theorem c4_unreliable_guess_fails (guess : List Nat → Encoding) (data : List Nat)
    (h : (encDecode (guess data) data).2 = true) :
    decode_bytes guess data = .error ⟨(guess data).name⟩ := by
  simp [decode_bytes, h]

/-- Witness for C4: the detector guessed strict UTF-8 for the byte `0xFF`,
whose decode requires substitution, so decoding fails carrying `"UTF-8"`. -/
theorem c4_witness :
    (encDecode (guessUtf8 [0xFF]) [0xFF]).2 = true ∧
      decode_bytes guessUtf8 [0xFF] = .error ⟨"UTF-8"⟩ :=
  ⟨by decide, c4_unreliable_guess_fails guessUtf8 [0xFF] (by decide)⟩

/-- C5: an Epub/Docx entry in a legacy non-UTF-8 encoding (here `"Привет"` in
windows-1251 bytes) makes the zipped-entry pipeline fail at `read_to_string`
— whatever the detector would have guessed — even though the decoder chain
itself (`safe_decode_bytes`) decodes those very bytes without failing; the
chain is unreachable behind the strict UTF-8 read. -/
theorem c5_zipped_legacy_entry_fails :
    (∀ guess : List Nat → Encoding,
        extract_zipped_entry guess [0xCF, 0xF0, 0xE8, 0xE2, 0xE5, 0xF2] =
          .error .ioInvalidUtf8) ∧
      safe_decode_bytes guessW1252 [0xCF, 0xF0, 0xE8, 0xE2, 0xE5, 0xF2] =
        .ok "Ïðèâåò".data := by
  refine ⟨fun _ => rfl, by decide⟩

/-- C6, counterexample: a `.txt` buffer with a UTF-16 LE byte-order mark is
not decoded via the BOM path.  The BOM-sniffing `is_utf8` check accepts it, so
`convert_to_utf8` reads the raw bytes with `String::from_utf8_lossy`: the BOM
bytes become replacement characters and the NULs remain, while the decoder
chain's BOM path yields `"AB"`. -/
theorem c6_counterexample :
    convert_to_utf8 guessW1252 [0xFF, 0xFE, 0x41, 0x00, 0x42, 0x00] =
        .ok [replacementChar, replacementChar, 'A', Char.ofNat 0, 'B', Char.ofNat 0] ∧
      safe_decode_bytes guessW1252 [0xFF, 0xFE, 0x41, 0x00, 0x42, 0x00] = .ok "AB".data ∧
      convert_to_utf8 guessW1252 [0xFF, 0xFE, 0x41, 0x00, 0x42, 0x00] ≠
        safe_decode_bytes guessW1252 [0xFF, 0xFE, 0x41, 0x00, 0x42, 0x00] := by
  refine ⟨by decide, by decide, by decide⟩

/-- C6 (amended): the `.txt` pipeline never takes the decoder chain's BOM
path.  Every buffer accepted by the BOM-sniffing `is_utf8` check — including a
UTF-16-BOM buffer over a clean UTF-16 payload — is read raw by
`String::from_utf8_lossy` and trimmed, so a UTF-16 document comes out as
replacement characters and embedded NULs rather than the BOM decode; buffers
the check rejects go to heuristic detection instead. -/
theorem c6_txt_bom_read_as_raw_utf8 (guess : List Nat → Encoding) (data : List Nat)
    (h : is_utf8 data = true) :
    convert_to_utf8 guess data = .ok (trimChars (utf8Decode data).1) := by
  simp [convert_to_utf8, h]

/-- Witness for the amended C6 theorem at the UTF-16-LE-BOM buffer: the check
passes, yet the result is the raw lossy-UTF-8 reading, not the BOM decode. -/
theorem c6_witness :
    is_utf8 [0xFF, 0xFE, 0x41, 0x00, 0x42, 0x00] = true ∧
      convert_to_utf8 guessW1252 [0xFF, 0xFE, 0x41, 0x00, 0x42, 0x00] =
        .ok (trimChars (utf8Decode [0xFF, 0xFE, 0x41, 0x00, 0x42, 0x00]).1) :=
  ⟨by decide,
    c6_txt_bom_read_as_raw_utf8 guessW1252 [0xFF, 0xFE, 0x41, 0x00, 0x42, 0x00] (by decide)⟩

/-- C7, counterexample: the single byte `0x61` is valid UTF-8 (`"a"`) and
carries no BOM, yet decoding returns the empty string — the character is
dropped by the length-two guard. -/
theorem c7_counterexample :
    safe_decode_bytes guessW1252 [0x61] = .ok [] ∧
      is_utf8 [0x61] = true ∧
      (Except.ok [] : Except DecodeError (List Char)) ≠ .ok ['a'] := by
  refine ⟨by decide, by decide, by decide⟩


/-- C7 (amended): for every buffer of length at least two that does not begin
with a UTF-16 byte-order mark and is strict-valid UTF-8, decoding succeeds and
returns exactly the buffer's text: re-encoding the result reproduces the input
bytes, so no character is substituted, dropped or altered.  (Length-one
buffers, by contrast, decode to the empty string.) -/
theorem c7_utf8_passthrough (guess : List Nat → Encoding) (data : List Nat)
    (hlen : 2 ≤ data.length)
    (hbom1 : data.take 2 ≠ [0xFF, 0xFE]) (hbom2 : data.take 2 ≠ [0xFE, 0xFF])
    (hvalid : is_utf8 data = true) :
    safe_decode_bytes guess data = .ok (utf8Decode data).1 ∧
      utf8EncodeList (utf8Decode data).1 = data := by
  rcases data with _ | ⟨b1, _ | ⟨b2, rest⟩⟩
  · simp at hlen
  · simp at hlen
  · have h1 : ¬(b1 = 0xFF ∧ b2 = 0xFE) := by
      rintro ⟨ha, hb⟩; exact hbom1 (by simp [List.take, ha, hb])
    have h2 : ¬(b1 = 0xFE ∧ b2 = 0xFF) := by
      rintro ⟨ha, hb⟩; exact hbom2 (by simp [List.take, ha, hb])
    refine ⟨?_, utf8Decode_encode _ (is_utf8_strict hbom1 hbom2 hvalid)⟩
    simp only [safe_decode_bytes]
    rw [if_neg h1, if_neg h2, if_pos hvalid]

/-- Witness for the amended C7 theorem at the two-byte buffer `"ab"`. -/
theorem c7_witness :
    2 ≤ [0x61, 0x62].length ∧
      [0x61, 0x62].take 2 ≠ [0xFF, 0xFE] ∧
      [0x61, 0x62].take 2 ≠ [0xFE, 0xFF] ∧
      is_utf8 [0x61, 0x62] = true ∧
      (safe_decode_bytes guessW1252 [0x61, 0x62] = .ok (utf8Decode [0x61, 0x62]).1 ∧
        utf8EncodeList (utf8Decode [0x61, 0x62]).1 = [0x61, 0x62]) :=
  ⟨by decide, by decide, by decide, by decide,
    c7_utf8_passthrough guessW1252 [0x61, 0x62] (by decide) (by decide) (by decide) (by decide)⟩

/-- C8: the UTF-16 BOM round trips of the spec, for every detector: the BOM
branch never consults it. -/
theorem c8_bom_roundtrip (guess : List Nat → Encoding) :
    safe_decode_bytes guess [0xFF, 0xFE, 0x41, 0x00, 0x42, 0x00] = .ok "AB".data ∧
      safe_decode_bytes guess [0xFE, 0xFF, 0x00, 0x41, 0x00, 0x42] = .ok "AB".data :=
  ⟨rfl, rfl⟩

/-- C9, counterexample: a malformed escape's consumed characters are appended
`as u8` — the code point truncated to its low byte — not as their literal
UTF-8 bytes: for `\'Ā0` (Ā = U+0100) the buffer receives a NUL byte, losing
the character, instead of the two UTF-8 bytes `C4 80`. -/
theorem c9_counterexample :
    rtfScanBytes "\\'\u01000".data = [0x5C, 0x27, 0x00, 0x30] ∧
      rtfScanBytes "\\'\u01000".data ≠ utf8EncodeList "\\'\u01000".data := by
  refine ⟨by decide, by decide⟩

/-- C9 (amended): a malformed escape (hex pair that `u8::from_str_radix`
rejects) appends the backslash, the apostrophe and each consumed character's
code point truncated to 8 bits (its literal byte exactly when the character is
ASCII), and the scan never aborts; in particular the ASCII input `\'4` at end
of input survives the full decode pipeline as the literal text `\'4`. -/
theorem c9_malformed_escape_truncates (h1 h2 : Char) (rest : List Char)
    (h : fromStrRadix16Pair h1 h2 = none) :
    rtfScanBytes ('\\' :: '\'' :: h1 :: h2 :: rest) =
        0x5C :: 0x27 :: (h1.toNat % 0x100) :: (h2.toNat % 0x100) :: rtfScanBytes rest ∧
      decode_rtf_escapes guessW1252 "\\'4".data = .ok "\\'4".data := by
  refine ⟨?_, by decide⟩
  rw [rtfScanBytes, h]

/-- Witness for the amended C9 theorem at the malformed escape `\'zz`. -/
theorem c9_witness :
    fromStrRadix16Pair 'z' 'z' = none ∧
      rtfScanBytes ['\\', '\'', 'z', 'z'] =
        0x5C :: 0x27 :: ('z'.toNat % 0x100) :: ('z'.toNat % 0x100) :: rtfScanBytes [] :=
  ⟨by decide, (c9_malformed_escape_truncates 'z' 'z' [] (by decide)).1⟩

/-- C10: every buffer of length 0 or 1 decodes to the empty string, whatever
the detector — a one-byte document body is silently discarded. -/
theorem c10_short_buffer_decodes_empty (guess : List Nat → Encoding) (data : List Nat)
    (h : data.length ≤ 1) :
    safe_decode_bytes guess data = .ok [] := by
  rcases data with _ | ⟨a, _ | ⟨b, t⟩⟩
  · rfl
  · rfl
  · simp [List.length_cons] at h

/-- Witness for C10 at the one-byte buffer `[0x61]` (the valid UTF-8 text
`"a"`), which decodes to the empty string. -/
theorem c10_witness :
    [0x61].length ≤ 1 ∧ safe_decode_bytes guessW1252 [0x61] = .ok [] :=
  ⟨by decide, c10_short_buffer_decodes_empty guessW1252 [0x61] (by decide)⟩

end Dox
